import Mathlib

/-!
Shallow embedding of `src/index.ts` of costlocker/loada-data-from-report.

The program fetches a paginated GraphQL report: `fetchReportDataPage` issues one
page request and normalizes the payload (`items || []`, `totalItems || 0`);
`fetchReportData` fetches page 1, computes `totalPages = Math.ceil(totalItems / pageSize)`,
issues pages `2..totalPages` concurrently via `Promise.all`, and concatenates the
items in page-ascending order.  The network is modelled as a function from the page
number to the settled outcome of that page's request (the only request parameter
that varies across the calls made by `fetchReportData` is the page number; `uuid`,
`filter`, `sorting` and `pageSize` are fixed for one aggregation, so they are
absorbed into the server function).  `Promise.all` is modelled with an explicit
arrival order: a list of indices giving the order in which the concurrent requests
settle; the real execution corresponds to an arbitrary permutation of all indices.
-/

namespace LoadReport

/-- Raw `reportData` payload of one GraphQL response, before normalization:
`items` and `totalItems` may each be absent (`undefined`/`null`), which the code
guards with `|| []` and `|| 0`.  `α` is the opaque record type of one item. -/
structure RawReportData (α : Type) where
  items : Option (List α)
  totalItems : Option Int
deriving Repr, DecidableEq

/-- Normalized result of one page request, as returned by `fetchReportDataPage`:
`{ items: any[]; totalItems: number }`. -/
structure PageResult (α : Type) where
  items : List α
  totalItems : Int
deriving Repr, DecidableEq

/-- Aggregated result of `fetchReportData`: `{ items: any[]; totalItems: number }`. -/
structure AggResult (α : Type) where
  items : List α
  totalItems : Int
deriving Repr, DecidableEq

/-- One page request (`fetchReportDataPage`): `server page` is the settled outcome
of `client.query` for that page.  On success the code computes
`items = result.data.reportData.items || []` and
`totalItems = result.data.reportData.totalItems || 0`; on failure the error
propagates unmodified (the `await` rethrows). -/
def fetchReportDataPage {α ε : Type} (server : Nat → Except ε (RawReportData α))
    (page : Nat) : Except ε (PageResult α) :=
  match server page with
  | .error e => .error e
  | .ok raw => .ok { items := raw.items.getD [], totalItems := raw.totalItems.getD 0 }

/-- The value of `Math.ceil(totalItems / pageSize)` for an integer `totalItems`
and a positive integer `pageSize`: the ceiling of the exact rational quotient,
computed as `-((-totalItems) / pageSize)` with Euclidean (floor, for a positive
divisor) division. -/
def totalPagesOf (totalItems pageSize : Int) : Int :=
  -((-totalItems) / pageSize)

/-- The page numbers of the loop `for (let page = 2; page <= totalPages; page++)`:
`[2, 3, ..., totalPages]`, empty when `totalPages ≤ 1`. -/
def remainingPageNumbers (totalPages : Int) : List Nat :=
  List.range' 2 (totalPages - 1).toNat

/-- The outcome of one settled promise for the `Promise.all` model: `some e` when
the promise at index `i` rejected with `e`, `none` when it fulfilled (or the index
is out of range). -/
def settledError {ε β : Type} (results : List (Except ε β)) (i : Nat) : Option ε :=
  match results[i]? with
  | some (.error e) => some e
  | _ => none

/-- The fulfilled values of a list of settled promises, in index order. -/
def okValues {ε β : Type} (results : List (Except ε β)) : List β :=
  results.filterMap fun r => match r with | .ok v => some v | .error _ => none

/-- Model of `Promise.all(pagePromises)`: `results` are the settled outcomes of the
promises in the order they were pushed, `order` is the arrival order (indices into
`results` in the order the promises settle; a real execution is a permutation of
all indices).  `Promise.all` rejects with the first rejection to arrive, and
otherwise fulfills with the values in index order — positional association, not
arrival order. -/
def promiseAll {ε β : Type} (results : List (Except ε β)) (order : List Nat) :
    Except ε (List β) :=
  match order.findSome? (settledError results) with
  | some e => .error e
  | none => .ok (okValues results)

/-- The aggregator `fetchReportData(client, uuid, filter?, pageSize = 100, sorting?)`:
fetch page 1, read `totalItems`, compute `totalPages = Math.ceil(totalItems / pageSize)`;
if `totalPages > 1`, issue pages `2..totalPages` concurrently and, once all settle
(`await Promise.all`), push each page's items onto `allItems` in request (page) order;
return `{ items: allItems, totalItems }`.  `order` is the arrival order of the
concurrent requests (see `promiseAll`). -/
def fetchReportData {α ε : Type} (server : Nat → Except ε (RawReportData α))
    (pageSize : Int) (order : List Nat) : Except ε (AggResult α) :=
  match fetchReportDataPage server 1 with
  | .error e => .error e
  | .ok firstPage =>
    let totalItems := firstPage.totalItems
    let totalPages := totalPagesOf totalItems pageSize
    if 1 < totalPages then
      let pageResults := (remainingPageNumbers totalPages).map (fetchReportDataPage server)
      match promiseAll pageResults order with
      | .error e => .error e
      | .ok pages =>
        .ok { items := pages.foldl (fun acc p => acc ++ p.items) firstPage.items,
              totalItems := totalItems }
    else
      .ok { items := firstPage.items, totalItems := totalItems }

/-- The pages for which `fetchReportData` issues a request, in issue order: page 1
always; pages `2..totalPages` exactly when page 1 succeeds and `totalPages > 1`.
Derived from the same control flow as `fetchReportData`. -/
def issuedPages {α ε : Type} (server : Nat → Except ε (RawReportData α))
    (pageSize : Int) : List Nat :=
  match fetchReportDataPage server 1 with
  | .error _ => [1]
  | .ok firstPage =>
    let totalPages := totalPagesOf firstPage.totalItems pageSize
    if 1 < totalPages then 1 :: remainingPageNumbers totalPages else [1]

/-- The `totalItems` observed on the page-1 response (0 when page 1 failed, in
which case no aggregation happens anyway). -/
def firstTotalItems {α ε : Type} (server : Nat → Except ε (RawReportData α)) : Int :=
  match fetchReportDataPage server 1 with
  | .error _ => 0
  | .ok firstPage => firstPage.totalItems

/-- The number of concurrent (page ≥ 2) requests issued by `fetchReportData`. -/
def remainingCount {α ε : Type} (server : Nat → Except ε (RawReportData α))
    (pageSize : Int) : Nat :=
  (issuedPages server pageSize).length - 1

/-- The normalized item sequence of one page as the aggregator sees it (empty for
a failed page — only used under a hypothesis that the page succeeded). -/
def pageItems {α ε : Type} (server : Nat → Except ε (RawReportData α))
    (p : Nat) : List α :=
  match fetchReportDataPage server p with
  | .error _ => []
  | .ok r => r.items

end LoadReport

namespace LoadReport

/-- Process environment as the program reads it: the three variables looked up
via `process.env`. -/
structure Env where
  costlockerApiUrl : Option String
  costlockerApiToken : Option String
  reportUuid : Option String
deriving Repr, DecidableEq

/-- JavaScript falsiness of an environment variable lookup: `!v` (and `v || ""`
followed by `!`) is true exactly when the variable is unset or the empty string. -/
def isFalsy : Option String → Bool
  | none => true
  | some s => s = ""

/-- What the program does before its first network call. `exitBeforeNetwork code msgs`:
`process.exit(code)` after printing `msgs` to standard error, with no request issued.
`proceedToQuery`: control reaches `fetchReportData(client, reportUuid)`, which
unconditionally issues the page-1 request. -/
inductive StartupOutcome
  | exitBeforeNetwork (code : Nat) (stderrLines : List String)
  | proceedToQuery
deriving Repr, DecidableEq

/-- Startup control flow of `src/index.ts`: at module load,
`if (!API_TOKEN) { console.error(...); console.error(...); process.exit(1); }`;
then `main` builds the client (no network) and checks
`const reportUuid = REPORT_UUID || ""; if (!reportUuid) { console.error(...); process.exit(1); }`
before calling `fetchReportData`.  `COSTLOCKER_API_URL` is never checked. -/
def startup (env : Env) : StartupOutcome :=
  if isFalsy env.costlockerApiToken then
    .exitBeforeNetwork 1
      ["Error: COSTLOCKER_API_TOKEN environment variable is required",
       "Please create a .env file based on .env.example"]
  else if isFalsy env.reportUuid then
    .exitBeforeNetwork 1 ["Error: REPORT_UUID environment variable is required"]
  else
    .proceedToQuery

/-- Whether the program issues at least one page request for the given
environment: it does exactly when startup does not exit first. -/
def programIssuesRequest (env : Env) : Bool :=
  match startup env with
  | .exitBeforeNetwork _ _ => false
  | .proceedToQuery => true

/-- Relation between two servers that agree on everything the aggregator uses
except the `totalItems` values of the related pages: a request either fails the
same way on both, or succeeds on both with the same `items` payload. -/
def agreeUpToTotalItems {α ε : Type} :
    Except ε (RawReportData α) → Except ε (RawReportData α) → Prop
  | .error e, .error e' => e = e'
  | .ok r, .ok r' => r.items = r'.items
  | _, _ => False

/-- Concrete server for witnesses: every page succeeds with two items and
`totalItems = 250`. -/
def serverAllOk250 : Nat → Except String (RawReportData Nat) :=
  fun p => .ok ⟨some [10 * p, 10 * p + 1], some 250⟩

/-- Concrete server for witnesses: page 2 fails, every other page succeeds with
`totalItems = 250`. -/
def serverFailPage2 : Nat → Except String (RawReportData Nat) :=
  fun p => if p = 2 then .error "network down" else .ok ⟨some [10 * p], some 250⟩

/-- Concrete server: page 1 succeeds with a non-empty item list but reports
`totalItems = 0`. -/
def serverZeroTotalNonempty : Nat → Except String (RawReportData Nat) :=
  fun _ => .ok ⟨some [7], some 0⟩

/-- Concrete server: page 1 succeeds with a negative `totalItems`. -/
def serverNegTotal : Nat → Except String (RawReportData Nat) :=
  fun _ => .ok ⟨some [3], some (-4)⟩

/-- Concrete server: page 1 succeeds with both payload fields absent. -/
def serverMissingFields : Nat → Except String (RawReportData Nat) :=
  fun _ => .ok ⟨none, none⟩

/-- Concrete server for the C7 witness: like `serverAllOk250` but every page
past the first reports a different, bogus `totalItems`. -/
def serverAllOk250Bogus : Nat → Except String (RawReportData Nat) :=
  fun p => .ok ⟨some [10 * p, 10 * p + 1], some (if p = 1 then 250 else 999)⟩

end LoadReport

namespace LoadReport

-- arithmetic facts about the page count

theorem totalPagesOf_nonneg {t p : Int} (ht : 0 ≤ t) (hp : 0 < p) :
    0 ≤ totalPagesOf t p := by
  unfold totalPagesOf
  have h := Int.ediv_le_ediv hp (by omega : -t ≤ 0)
  rw [Int.zero_ediv] at h
  omega

theorem totalPagesOf_le_one {t p : Int} (hp : 0 < p) (hle : t ≤ p) :
    totalPagesOf t p ≤ 1 := by
  unfold totalPagesOf
  have h := Int.ediv_le_ediv hp (by omega : -p ≤ -t)
  rw [Int.neg_ediv_self p (by omega)] at h
  omega

theorem totalPagesOf_zero_left (p : Int) : totalPagesOf 0 p = 0 := by
  simp [totalPagesOf]

-- structural facts shared by several claims

theorem settledError_eq_none_of_ok {ε β : Type} {results : List (Except ε β)}
    (h : ∀ r ∈ results, ∃ v, r = .ok v) (i : Nat) :
    settledError results i = none := by
  unfold settledError
  cases hres : results[i]? with
  | none => rfl
  | some r =>
    obtain ⟨v, rfl⟩ := h r (List.getElem?_mem hres)
    rfl

theorem settledError_eq_some_inv {ε β : Type} {results : List (Except ε β)}
    {i : Nat} {e : ε} (h : settledError results i = some e) :
    results[i]? = some (.error e) := by
  unfold settledError at h
  cases hres : results[i]? with
  | none =>
    rw [hres] at h
    exact absurd (h : (none : Option ε) = some e) (by simp)
  | some r =>
    cases r with
    | error e1 =>
      rw [hres] at h
      have h2 : some e1 = some e := h
      rw [Option.some.injEq] at h2
      rw [h2]

    | ok v =>
      rw [hres] at h
      exact absurd (h : (none : Option ε) = some e) (by simp)

theorem foldl_append_items {α : Type} :
    ∀ (l : List (PageResult α)) (acc : List α),
      l.foldl (fun a p => a ++ p.items) acc = acc ++ (l.map PageResult.items).flatten
  | [], acc => by simp
  | p :: l, acc => by
    simp [foldl_append_items l (acc ++ p.items)]

theorem okValues_map_items {α ε : Type} (server : Nat → Except ε (RawReportData α)) :
    ∀ (l : List Nat), (∀ p ∈ l, ∃ r, fetchReportDataPage server p = .ok r) →
      (okValues (l.map (fetchReportDataPage server))).map PageResult.items
        = l.map (pageItems server)
  | [], _ => rfl
  | p :: l, h => by
    obtain ⟨r, hr⟩ := h p (by simp)
    have ih := okValues_map_items server l (fun q hq => h q (by simp [hq]))
    simp only [List.map_cons, okValues, List.filterMap_cons, hr] at ih ⊢
    simp only [List.map_cons, ih, pageItems, hr]

theorem fetchReportData_of_totalPages_le_one {α ε : Type}
    (server : Nat → Except ε (RawReportData α)) (pageSize : Int) (order : List Nat)
    {first : PageResult α} (h1 : fetchReportDataPage server 1 = .ok first)
    (htp : totalPagesOf first.totalItems pageSize ≤ 1) :
    issuedPages server pageSize = [1] ∧
    fetchReportData server pageSize order = .ok ⟨first.items, first.totalItems⟩ := by
  constructor
  · unfold issuedPages
    rw [h1]
    simp only [if_neg (by omega : ¬ 1 < totalPagesOf first.totalItems pageSize)]
  · unfold fetchReportData
    rw [h1]
    simp only [if_neg (by omega : ¬ 1 < totalPagesOf first.totalItems pageSize)]

/-- C6: for every successful response, `fetchReportDataPage` normalizes an
absent `items` field to the empty sequence and an absent `totalItems` field to
0, so the returned record always carries a defined item sequence and a defined
`totalItems` number. -/
theorem fetchReportDataPage_normalizes {α ε : Type}
    (server : Nat → Except ε (RawReportData α)) (p : Nat) (raw : RawReportData α)
    (h : server p = .ok raw) :
    ∃ res : PageResult α, fetchReportDataPage server p = .ok res ∧
      res.items = raw.items.getD [] ∧ res.totalItems = raw.totalItems.getD 0 ∧
      (raw.items = none → res.items = []) ∧
      (raw.totalItems = none → res.totalItems = 0) := by
  refine ⟨⟨raw.items.getD [], raw.totalItems.getD 0⟩, ?_, rfl, rfl, ?_, ?_⟩
  · unfold fetchReportDataPage
    rw [h]
  · intro hi
    rw [hi]
    rfl
  · intro hi
    rw [hi]
    rfl

/-- Witness for C6 at a concrete response with both fields absent. -/
theorem fetchReportDataPage_normalizes_witness :
    ∃ res : PageResult Nat, fetchReportDataPage serverMissingFields 1 = .ok res ∧
      res.items = [] ∧ res.totalItems = 0 := by
  obtain ⟨res, h1, h2, h3, _, _⟩ :=
    fetchReportDataPage_normalizes serverMissingFields 1 ⟨none, none⟩ rfl
  exact ⟨res, h1, h2, h3⟩

/-- C4 counterexample: with a page-1 response reporting `totalItems = 0` but a
non-empty `items` array, `fetchReportData` issues exactly one request yet
returns the non-empty page-1 items, not an empty sequence. -/
theorem fetchReportData_zero_total_counterexample :
    issuedPages serverZeroTotalNonempty 100 = [1] ∧
    fetchReportData serverZeroTotalNonempty 100 [] = .ok ⟨[7], 0⟩ ∧
    ([7] : List Nat) ≠ [] :=
  ⟨rfl, rfl, by decide⟩

/-- C4 (amended): when the first page reports `totalItems = 0`,
`fetchReportData` issues exactly one page request and returns exactly the first
page's item sequence together with `totalItems = 0`; the returned sequence is
empty whenever the first page's item list is empty. -/
theorem fetchReportData_zero_total {α ε : Type}
    (server : Nat → Except ε (RawReportData α)) (pageSize : Int) (order : List Nat)
    (first : PageResult α) (h1 : fetchReportDataPage server 1 = .ok first)
    (h0 : first.totalItems = 0) :
    issuedPages server pageSize = [1] ∧
    fetchReportData server pageSize order = .ok ⟨first.items, 0⟩ ∧
    (first.items = [] → fetchReportData server pageSize order = .ok ⟨[], 0⟩) := by
  have h := fetchReportData_of_totalPages_le_one server pageSize order h1
    (by rw [h0, totalPagesOf_zero_left]; omega)
  rw [h0] at h
  exact ⟨h.1, h.2, fun he => by rw [h.2, he]⟩

/-- Witness for C4 (amended) at a concrete zero-total response. -/
theorem fetchReportData_zero_total_witness :
    issuedPages serverZeroTotalNonempty 100 = [1] ∧
    fetchReportData serverZeroTotalNonempty 100 [] = .ok ⟨[7], 0⟩ ∧
    (([7] : List Nat) = [] → fetchReportData serverZeroTotalNonempty 100 [] = .ok ⟨[], 0⟩) :=
  fetchReportData_zero_total serverZeroTotalNonempty 100 [] ⟨[7], 0⟩ rfl rfl

/-- C9: whenever the first page reports `totalItems ≤ pageSize` — including a
zero or negative value — `fetchReportData` issues no further requests and
returns exactly the first page's item sequence (even if non-empty or of a
length disagreeing with `totalItems`) together with that `totalItems`; a
present negative `totalItems` passes through the `|| 0` normalization
unchanged (only an absent value is mapped to 0). -/
theorem fetchReportData_single_page {α ε : Type}
    (server : Nat → Except ε (RawReportData α)) (pageSize : Int) (order : List Nat)
    (first : PageResult α) (hp : 0 < pageSize)
    (h1 : fetchReportDataPage server 1 = .ok first)
    (hle : first.totalItems ≤ pageSize) :
    issuedPages server pageSize = [1] ∧
    fetchReportData server pageSize order = .ok ⟨first.items, first.totalItems⟩ ∧
    ∀ raw n, server 1 = .ok raw → raw.totalItems = some n → first.totalItems = n := by
  have h := fetchReportData_of_totalPages_le_one server pageSize order h1
    (totalPagesOf_le_one hp hle)
  refine ⟨h.1, h.2, ?_⟩
  intro raw n hraw hn
  unfold fetchReportDataPage at h1
  rw [hraw] at h1
  cases h1
  rw [hn]
  rfl

/-- Witness for C9 at a concrete response with a negative `totalItems`. -/
theorem fetchReportData_single_page_witness :
    issuedPages serverNegTotal 100 = [1] ∧
    fetchReportData serverNegTotal 100 [] = .ok ⟨[3], -4⟩ ∧
    ∀ raw n, serverNegTotal 1 = .ok raw → raw.totalItems = some n → (-4 : Int) = n :=
  fetchReportData_single_page serverNegTotal 100 [] ⟨[3], -4⟩
    (by decide) rfl (by decide)

/-- C1: for every `pageSize ≥ 1` and every `totalItems ≥ 0` reported by the
first page, `fetchReportData` issues exactly `max 1 ⌈totalItems / pageSize⌉`
page requests — the page-1 request followed by one request per page
`2..totalPages` — and exactly one request carries `page = 1`. -/
theorem fetchReportData_request_pattern {α ε : Type}
    (server : Nat → Except ε (RawReportData α)) (pageSize : Int)
    (first : PageResult α) (hp : 0 < pageSize)
    (h1 : fetchReportDataPage server 1 = .ok first)
    (ht : 0 ≤ first.totalItems) :
    issuedPages server pageSize
      = 1 :: List.range' 2 (totalPagesOf first.totalItems pageSize - 1).toNat ∧
    (issuedPages server pageSize).length
      = (max 1 (totalPagesOf first.totalItems pageSize)).toNat ∧
    (issuedPages server pageSize).count 1 = 1 := by
  have htp := totalPagesOf_nonneg ht hp
  have hiss : issuedPages server pageSize
      = 1 :: List.range' 2 (totalPagesOf first.totalItems pageSize - 1).toNat := by
    unfold issuedPages
    rw [h1]
    by_cases hc : 1 < totalPagesOf first.totalItems pageSize
    · simp only [if_pos hc, remainingPageNumbers]
    · simp only [if_neg hc]
      rw [show (totalPagesOf first.totalItems pageSize - 1).toNat = 0 by omega]
      rfl
  refine ⟨hiss, ?_, ?_⟩
  · rw [hiss]
    simp only [List.length_cons, List.length_range']
    omega
  · rw [hiss, List.count_cons]
    have h1notin : (1 : Nat) ∉ List.range' 2 (totalPagesOf first.totalItems pageSize - 1).toNat := by
      intro hmem
      rw [List.mem_range'_1] at hmem
      omega
    rw [List.count_eq_zero.mpr h1notin]
    simp

/-- Witness for C1: `totalItems = 250`, `pageSize = 100` yields exactly the
three requests for pages 1, 2, 3. -/
theorem fetchReportData_request_pattern_witness :
    issuedPages serverAllOk250 100 = [1, 2, 3] ∧
    (issuedPages serverAllOk250 100).length = 3 ∧
    (issuedPages serverAllOk250 100).count 1 = 1 := by
  have h := fetchReportData_request_pattern serverAllOk250 100
    ⟨[10, 11], 250⟩ (by decide) rfl (by decide)
  refine ⟨?_, ?_, h.2.2⟩
  · rw [h.1]
    rfl
  · rw [h.2.1]
    rfl

/-- C8: under the unchecked precondition `pageSize ≥ 1`, `fetchReportData`
terminates after issuing at most `max 1 ⌈totalItems / pageSize⌉` page requests,
where `totalItems` is the value observed on the page-1 response: the loop over
pages `2..totalPages` is bounded (the precondition appears only as a
hypothesis; the code never validates it). -/
theorem fetchReportData_request_bound {α ε : Type}
    (server : Nat → Except ε (RawReportData α)) (pageSize : Int)
    (_hp : 0 < pageSize) :
    (issuedPages server pageSize).length
      ≤ (max 1 (totalPagesOf (firstTotalItems server) pageSize)).toNat := by
  unfold issuedPages firstTotalItems
  cases h1 : fetchReportDataPage server 1 with
  | error e =>
    rw [totalPagesOf_zero_left]
    simp
  | ok first =>
    by_cases hc : 1 < totalPagesOf first.totalItems pageSize
    · simp only [if_pos hc, remainingPageNumbers, List.length_cons, List.length_range']
      omega
    · simp only [if_neg hc, List.length_cons, List.length_nil]
      omega

/-- Witness for C8 at a concrete server and page size. -/
theorem fetchReportData_request_bound_witness :
    (issuedPages serverAllOk250 100).length
      ≤ (max 1 (totalPagesOf (firstTotalItems serverAllOk250) 100)).toNat :=
  fetchReportData_request_bound serverAllOk250 100 (by decide)

/-- C5 counterexample: with `COSTLOCKER_API_URL` unset but the token and report
UUID present, startup performs no early exit: the program proceeds to
`fetchReportData` and issues the page-1 request, refuting the claim that a
missing `COSTLOCKER_API_URL` causes an exit with zero requests issued. -/
theorem startup_missing_api_url_proceeds :
    startup ⟨none, some "token", some "uuid"⟩ = .proceedToQuery ∧
    programIssuesRequest ⟨none, some "token", some "uuid"⟩ = true := by
  constructor <;> rfl

/-- C5 (amended): if `COSTLOCKER_API_TOKEN` is missing or empty, or
`REPORT_UUID` is missing or empty, the program writes an error message to
standard error and exits with a non-zero code before any network call (zero
requests issued); `COSTLOCKER_API_URL` is never validated and its absence does
not cause an early exit. -/
theorem startup_exits_before_network (env : Env)
    (h : isFalsy env.costlockerApiToken = true ∨ isFalsy env.reportUuid = true) :
    ∃ code msgs, startup env = .exitBeforeNetwork code msgs ∧ code ≠ 0 ∧ msgs ≠ [] ∧
      programIssuesRequest env = false := by
  have hs : ∃ code msgs, startup env = .exitBeforeNetwork code msgs ∧
      code ≠ 0 ∧ msgs ≠ [] := by
    unfold startup
    rcases h with h | h
    · rw [if_pos h]
      exact ⟨1, _, rfl, by omega, by simp⟩
    · by_cases ht : isFalsy env.costlockerApiToken = true
      · rw [if_pos ht]
        exact ⟨1, _, rfl, by omega, by simp⟩
      · rw [if_neg ht, if_pos h]
        exact ⟨1, _, rfl, by omega, by simp⟩
  obtain ⟨code, msgs, hse, hc, hm⟩ := hs
  refine ⟨code, msgs, hse, hc, hm, ?_⟩
  unfold programIssuesRequest
  rw [hse]

/-- Witness for C5 (amended) at a concrete environment with the token unset. -/
theorem startup_exits_before_network_witness :
    ∃ code msgs, startup ⟨some "url", none, some "uuid"⟩
        = .exitBeforeNetwork code msgs ∧ code ≠ 0 ∧ msgs ≠ [] ∧
      programIssuesRequest ⟨some "url", none, some "uuid"⟩ = false :=
  startup_exits_before_network ⟨some "url", none, some "uuid"⟩ (Or.inl rfl)

/-- C2: when every issued page request succeeds, the item sequence returned by
`fetchReportData` is the concatenation of page 1's items, then page 2's items,
…, then page N's items, in ascending page order, for every arrival order of the
concurrent requests: the right-hand side does not mention `order`, so the
output is invariant under any permutation of network completion order. -/
theorem fetchReportData_items_in_page_order {α ε : Type}
    (server : Nat → Except ε (RawReportData α)) (pageSize : Int) (order : List Nat)
    (first : PageResult α) (h1 : fetchReportDataPage server 1 = .ok first)
    (hall : ∀ p ∈ remainingPageNumbers (totalPagesOf first.totalItems pageSize),
      ∃ r, fetchReportDataPage server p = .ok r) :
    fetchReportData server pageSize order
      = .ok ⟨((1 :: remainingPageNumbers (totalPagesOf first.totalItems pageSize)).map
               (pageItems server)).flatten,
             first.totalItems⟩ := by
  have hfirstItems : pageItems server 1 = first.items := by
    unfold pageItems
    rw [h1]
  by_cases hc : 1 < totalPagesOf first.totalItems pageSize
  · unfold fetchReportData
    rw [h1]
    simp only [if_pos hc]
    have hok : ∀ r ∈ (remainingPageNumbers (totalPagesOf first.totalItems pageSize)).map
        (fetchReportDataPage server), ∃ v, r = .ok v := by
      intro r hr
      rw [List.mem_map] at hr
      obtain ⟨p, hpmem, rfl⟩ := hr
      exact hall p hpmem
    have hnone : order.findSome? (settledError
        ((remainingPageNumbers (totalPagesOf first.totalItems pageSize)).map
          (fetchReportDataPage server))) = none := by
      rw [List.findSome?_eq_none_iff]
      intro i _
      exact settledError_eq_none_of_ok hok i
    unfold promiseAll
    simp only [hnone]
    rw [foldl_append_items, okValues_map_items server _ hall]
    simp [hfirstItems]
  · have hrem : remainingPageNumbers (totalPagesOf first.totalItems pageSize) = [] := by
      unfold remainingPageNumbers
      rw [show (totalPagesOf first.totalItems pageSize - 1).toNat = 0 by omega]
      rfl
    rw [hrem]
    unfold fetchReportData
    rw [h1]
    simp only [if_neg hc]
    simp [hfirstItems]

/-- Witness for C2 at a concrete three-page report with a reversed arrival
order. -/
theorem fetchReportData_items_in_page_order_witness :
    fetchReportData serverAllOk250 100 [1, 0]
      = .ok ⟨((1 :: remainingPageNumbers (totalPagesOf 250 100)).map
               (pageItems serverAllOk250)).flatten,
             250⟩ :=
  fetchReportData_items_in_page_order serverAllOk250 100 [1, 0]
    ⟨[10, 11], 250⟩ rfl
    (fun p _ => ⟨⟨[10 * p, 10 * p + 1], 250⟩, rfl⟩)

/-- C3: if any issued page request fails — page 1 or any concurrently issued
page ≥ 2, for any arrival order of the concurrent requests — then
`fetchReportData` as a whole fails, and the error it fails with is exactly the
unmodified error of one of the issued page requests; no partial item list is
returned, since the failing result carries no items at all. -/
theorem fetchReportData_error_propagation {α ε : Type}
    (server : Nat → Except ε (RawReportData α)) (pageSize : Int) (order : List Nat)
    (horder : order.Perm (List.range (remainingCount server pageSize)))
    (hfail : ∃ p ∈ issuedPages server pageSize, ∃ e,
      fetchReportDataPage server p = .error e) :
    ∃ e, fetchReportData server pageSize order = .error e ∧
      ∃ q ∈ issuedPages server pageSize, fetchReportDataPage server q = .error e := by
  cases h1 : fetchReportDataPage server 1 with
  | error e =>
    refine ⟨e, ?_, 1, ?_, h1⟩
    · unfold fetchReportData
      rw [h1]
    · unfold issuedPages
      rw [h1]
      simp
  | ok first =>
    by_cases hc : 1 < totalPagesOf first.totalItems pageSize
    case neg =>
      exfalso
      obtain ⟨p, hpmem, e, hperr⟩ := hfail
      unfold issuedPages at hpmem
      rw [h1] at hpmem
      simp only [if_neg hc] at hpmem
      rw [List.mem_singleton] at hpmem
      subst hpmem
      rw [h1] at hperr
      exact Except.noConfusion hperr
    case pos =>
      have hiss : issuedPages server pageSize
          = 1 :: remainingPageNumbers (totalPagesOf first.totalItems pageSize) := by
        unfold issuedPages
        rw [h1]
        simp only [if_pos hc]
      have hcount : remainingCount server pageSize
          = (remainingPageNumbers (totalPagesOf first.totalItems pageSize)).length := by
        unfold remainingCount
        rw [hiss]
        simp
      obtain ⟨p, hpmem, e, hperr⟩ := hfail
      rw [hiss] at hpmem
      set rem := remainingPageNumbers (totalPagesOf first.totalItems pageSize) with hremdef
      have hprem : p ∈ rem := by
        rcases List.mem_cons.mp hpmem with h | h
        · subst h
          rw [h1] at hperr
          exact absurd hperr (by simp)
        · exact h
      obtain ⟨i, hi, hip⟩ := List.mem_iff_getElem.mp hprem
      have hse : settledError (rem.map (fetchReportDataPage server)) i = some e := by
        unfold settledError
        rw [List.getElem?_map, List.getElem?_eq_getElem hi, hip]
        simp [hperr]
      have hne : order.findSome? (settledError (rem.map (fetchReportDataPage server)))
          ≠ none := by
        intro hn
        rw [List.findSome?_eq_none_iff] at hn
        have hio : i ∈ order := by
          rw [horder.mem_iff, hcount]
          exact List.mem_range.mpr hi
        exact absurd (hn i hio) (by rw [hse]; simp)
      cases hfs : order.findSome? (settledError (rem.map (fetchReportDataPage server))) with
      | none => exact absurd hfs hne
      | some e0 =>
        obtain ⟨j, hjo, hje⟩ := List.exists_of_findSome?_eq_some hfs
        have hj : j < rem.length := by
          have hjr : j ∈ List.range (remainingCount server pageSize) :=
            horder.mem_iff.mp hjo
          rw [hcount] at hjr
          exact List.mem_range.mp hjr
        have hqe : fetchReportDataPage server rem[j] = .error e0 := by
          have h2 := settledError_eq_some_inv hje
          rw [List.getElem?_map, List.getElem?_eq_getElem hj] at h2
          exact Option.some.inj h2
        refine ⟨e0, ?_, rem[j], ?_, hqe⟩
        · unfold fetchReportData
          rw [h1]
          simp only [if_pos hc]
          unfold promiseAll
          simp only [← hremdef, hfs]
        · rw [hiss]
          exact List.mem_cons_of_mem _ (List.getElem_mem hj)

/-- Witness for C3: the page-2 request fails in a three-page report, with the
concurrent requests settling out of order. -/
theorem fetchReportData_error_propagation_witness :
    ∃ e, fetchReportData serverFailPage2 100 [1, 0] = .error e ∧
      ∃ q ∈ issuedPages serverFailPage2 100,
        fetchReportDataPage serverFailPage2 q = .error e :=
  fetchReportData_error_propagation serverFailPage2 100 [1, 0]
    (by decide) ⟨2, by decide, "network down", rfl⟩

theorem findSome?_congr {γ δ : Type} (f g : γ → Option δ) :
    ∀ (l : List γ), (∀ a ∈ l, f a = g a) → l.findSome? f = l.findSome? g
  | [], _ => rfl
  | a :: l, h => by
    rw [List.findSome?_cons, List.findSome?_cons, h a (by simp)]
    cases g a with
    | none => exact findSome?_congr f g l (fun b hb => h b (by simp [hb]))
    | some b => rfl

theorem fetchReportDataPage_agree {α ε : Type}
    {server altServer : Nat → Except ε (RawReportData α)} {p : Nat}
    (h : agreeUpToTotalItems (server p) (altServer p)) :
    (∃ e, fetchReportDataPage server p = .error e ∧
      fetchReportDataPage altServer p = .error e)
    ∨ (∃ r r2, fetchReportDataPage server p = .ok r ∧
      fetchReportDataPage altServer p = .ok r2 ∧ r.items = r2.items) := by
  unfold fetchReportDataPage
  cases hs : server p with
  | error e =>
    cases hs2 : altServer p with
    | error e2 =>
      rw [hs, hs2] at h
      have he : e = e2 := h
      left
      exact ⟨e, rfl, by rw [he]⟩
    | ok r2 =>
      rw [hs, hs2] at h
      exact absurd h (by simp [agreeUpToTotalItems])
  | ok r =>
    cases hs2 : altServer p with
    | error e2 =>
      rw [hs, hs2] at h
      exact absurd h (by simp [agreeUpToTotalItems])
    | ok r2 =>
      rw [hs, hs2] at h
      have hit : r.items = r2.items := h
      right
      exact ⟨_, _, rfl, rfl, by rw [hit]⟩

theorem settledError_congr {α ε : Type}
    {server altServer : Nat → Except ε (RawReportData α)} {l : List Nat}
    (h : ∀ p ∈ l, agreeUpToTotalItems (server p) (altServer p)) (i : Nat) :
    settledError (l.map (fetchReportDataPage server)) i
      = settledError (l.map (fetchReportDataPage altServer)) i := by
  unfold settledError
  rw [List.getElem?_map, List.getElem?_map]
  cases hl : l[i]? with
  | none => rfl
  | some p =>
    have hmem := List.getElem?_mem hl
    rcases fetchReportDataPage_agree (h p hmem) with ⟨e, he, he2⟩ | ⟨r, r2, hr, hr2, _⟩
    · rw [Option.map_some', Option.map_some', he, he2]
    · rw [Option.map_some', Option.map_some', hr, hr2]

theorem okValues_items_congr {α ε : Type}
    {server altServer : Nat → Except ε (RawReportData α)} :
    ∀ (l : List Nat), (∀ p ∈ l, agreeUpToTotalItems (server p) (altServer p)) →
      (okValues (l.map (fetchReportDataPage server))).map PageResult.items
        = (okValues (l.map (fetchReportDataPage altServer))).map PageResult.items
  | [], _ => rfl
  | p :: l, h => by
    have ih := okValues_items_congr l (fun q hq => h q (by simp [hq]))
    rcases fetchReportDataPage_agree (h p (by simp)) with ⟨e, he, he2⟩ | ⟨r, r2, hr, hr2, hit⟩
    · simp only [List.map_cons, okValues, List.filterMap_cons, he, he2]
      exact ih
    · simp only [List.map_cons, okValues, List.filterMap_cons, hr, hr2, List.map_cons]
      rw [hit]
      simp only [okValues] at ih
      rw [ih]

/-- C7: the `totalItems` value returned by `fetchReportData` always equals the
`totalItems` observed on the page-1 response; the `totalItems` values reported
by pages 2..N have no effect on the returned record — two servers that agree on
page 1 and differ at most in the `totalItems` fields of later pages produce
identical results. -/
theorem fetchReportData_totalItems_from_page_one {α ε : Type}
    (server altServer : Nat → Except ε (RawReportData α)) (pageSize : Int)
    (order : List Nat) :
    (∀ res, fetchReportData server pageSize order = .ok res →
      ∃ first, fetchReportDataPage server 1 = .ok first ∧
        res.totalItems = first.totalItems)
    ∧ (server 1 = altServer 1 →
      (∀ p, 2 ≤ p → agreeUpToTotalItems (server p) (altServer p)) →
      fetchReportData server pageSize order = fetchReportData altServer pageSize order) := by
  constructor
  · intro res hres
    unfold fetchReportData at hres
    cases h1 : fetchReportDataPage server 1 with
    | error e =>
      rw [h1] at hres
      exact Except.noConfusion hres
    | ok first =>
      rw [h1] at hres
      refine ⟨first, rfl, ?_⟩
      by_cases hc : 1 < totalPagesOf first.totalItems pageSize
      · simp only [if_pos hc] at hres
        cases hall : promiseAll ((remainingPageNumbers (totalPagesOf first.totalItems
            pageSize)).map (fetchReportDataPage server)) order with
        | error e =>
          rw [hall] at hres
          exact Except.noConfusion hres
        | ok pages =>
          rw [hall] at hres
          have h2 := Except.ok.inj hres
          rw [← h2]
      · simp only [if_neg hc] at hres
        have h2 := Except.ok.inj hres
        rw [← h2]
  · intro h1 hrest
    have hpage1 : fetchReportDataPage server 1 = fetchReportDataPage altServer 1 := by
      unfold fetchReportDataPage
      rw [h1]
    unfold fetchReportData
    rw [← hpage1]
    cases hfp : fetchReportDataPage server 1 with
    | error e => rfl
    | ok first =>
      by_cases hc : 1 < totalPagesOf first.totalItems pageSize
      · simp only [if_pos hc]
        have hagree : ∀ p ∈ remainingPageNumbers (totalPagesOf first.totalItems pageSize),
            agreeUpToTotalItems (server p) (altServer p) := by
          intro p hp
          refine hrest p ?_
          unfold remainingPageNumbers at hp
          rw [List.mem_range'_1] at hp
          omega
        have hfs : order.findSome? (settledError ((remainingPageNumbers
              (totalPagesOf first.totalItems pageSize)).map (fetchReportDataPage server)))
            = order.findSome? (settledError ((remainingPageNumbers
              (totalPagesOf first.totalItems pageSize)).map (fetchReportDataPage altServer))) :=
          findSome?_congr _ _ order (fun i _ => settledError_congr hagree i)
        unfold promiseAll
        rw [hfs]
        cases hfind : order.findSome? (settledError ((remainingPageNumbers
            (totalPagesOf first.totalItems pageSize)).map (fetchReportDataPage altServer))) with
        | some e => rfl
        | none =>
          simp only []
          rw [foldl_append_items, foldl_append_items,
            okValues_items_congr _ hagree]
      · simp only [if_neg hc]

/-- Witness for C7: a three-page report where every page past the first reports
a bogus `totalItems`; the aggregated record is unchanged. -/
theorem fetchReportData_totalItems_from_page_one_witness :
    (∃ first, fetchReportDataPage serverAllOk250 1 = .ok first ∧
      (250 : Int) = first.totalItems) ∧
    fetchReportData serverAllOk250 100 [0, 1]
      = fetchReportData serverAllOk250Bogus 100 [0, 1] := by
  have h := fetchReportData_totalItems_from_page_one serverAllOk250 serverAllOk250Bogus
    100 [0, 1]
  exact ⟨h.1 ⟨[10, 11, 20, 21, 30, 31], 250⟩ rfl, h.2 rfl (fun p _ => rfl)⟩

end LoadReport
